import Mathlib

/-!
Verification of the auction retrieval core of the Trade Me auction tools
repository: the query builder (price filtering, free-text search, ordering,
result cap), the point lookup, and the keyword-overlap similarity heuristic,
together with the persisted data model enforced by the mongoose schema
(`src/models/Auction.js`).

The HTTP routing layer exposes these operations; its handler module is not
part of the sources available here, so the operations themselves are
modelled from the specification (each such definition is marked
"Modelled from the spec"), while the schema-level validation is embedded
directly from the mongoose schema source.

Text is modelled as lists of Unicode code points (`Nat`), so that all
operations are executable and all predicates decidable.
-/

/-- Characters are modelled as Unicode code points; a string is a list of
code points. -/
abbrev Str := List Nat

/-- Convert a Lean string literal into the code-point model (used for
concrete test data only). -/
def strOf (s : String) : Str := s.data.map Char.toNat

/-- The sole persisted entity. `title` and `description` are text,
`start_price` and `reserve_price` are numbers, `created_at` and
`updated_at` are timestamps maintained by the store (`timestamps: true`
in the mongoose schema), and `id` is the store-assigned identifier. -/
structure Auction where
  id : Str
  title : Str
  description : Str
  start_price : Int
  reserve_price : Int
  created_at : Nat
  updated_at : Nat
  deriving DecidableEq

/-- Embedded from the mongoose schema in `src/models/Auction.js`: `title`
and `description` are required (non-empty) strings, and both prices carry
a `min: 0` validator. The schema states no constraint relating
`reserve_price` to `start_price`. -/
def schemaValid (a : Auction) : Bool :=
  !a.title.isEmpty && !a.description.isEmpty &&
    decide (0 ≤ a.start_price) && decide (0 ≤ a.reserve_price)

/-- The optional request filters accepted by the list and search
operations: price bounds on `start_price` and a result cap. -/
structure Filters where
  minPrice : Option Int
  maxPrice : Option Int
  limit : Option Nat
  deriving DecidableEq

/-- The structured failure kinds surfaced by the operations. -/
inductive ApiError where
  | MissingQueryParameter
  | NotFound
  | InvalidIdentifier
  deriving DecidableEq

/-- Modelled from the spec: when present, `minPrice` constrains
`start_price` from below and `maxPrice` from above; an absent bound
imposes no constraint. -/
def matchesPrice (f : Filters) (a : Auction) : Bool :=
  (match f.minPrice with
   | some lo => decide (lo ≤ a.start_price)
   | none => true) &&
  (match f.maxPrice with
   | some hi => decide (a.start_price ≤ hi)
   | none => true)

/-- ASCII lower-casing on code points (the case folding relevant to the
store's case-insensitive matching). -/
def lowerCp (n : Nat) : Nat := if 65 ≤ n ∧ n ≤ 90 then n + 32 else n

/-- ASCII upper-casing on code points. -/
def upperCp (n : Nat) : Nat := if 97 ≤ n ∧ n ≤ 122 then n - 32 else n

/-- Lower-case a string. -/
def lowerStr (s : Str) : Str := s.map lowerCp

/-- Upper-case a string. -/
def upperStr (s : Str) : Str := s.map upperCp

/-- `leadsWith needle hay` holds when `needle` is an initial segment of
`hay`. -/
def leadsWith : Str → Str → Bool
  | [], _ => true
  | _ :: _, [] => false
  | a :: as, b :: bs => decide (a = b) && leadsWith as bs

/-- `containsSub hay needle` holds when `needle` occurs contiguously
inside `hay`. -/
def containsSub (hay needle : Str) : Bool :=
  hay.tails.any (fun t => leadsWith needle t)

/-- Modelled from the spec: the free-text query `q` matches an auction
when `title` or `description` contains `q` case-insensitively. -/
def matchesQuery (q : Str) (a : Auction) : Bool :=
  containsSub (lowerStr a.title) (lowerStr q) ||
    containsSub (lowerStr a.description) (lowerStr q)

/-- Descending-recency order on auctions: `a` precedes `b` when `b` was
created no later than `a`. -/
def createdDesc (a b : Auction) : Prop := b.created_at ≤ a.created_at

instance : DecidableRel createdDesc := fun a b => Nat.decLe b.created_at a.created_at

instance : IsTotal Auction createdDesc :=
  ⟨fun a b => Nat.le_total b.created_at a.created_at⟩

instance : IsTrans Auction createdDesc :=
  ⟨fun _ _ _ h1 h2 => Nat.le_trans h2 h1⟩

/-- Modelled from the spec: the store returns matches sorted by
`created_at` descending. -/
def sortByCreatedDesc (xs : List Auction) : List Auction :=
  xs.insertionSort createdDesc

/-- Modelled from the spec: an absent `limit` means an
implementation-defined default cap. -/
def defaultLimit : Nat := 20

/-- Modelled from the spec: cap the result sequence at `limit` entries
(the default cap when `limit` is absent). -/
def applyLimit (limit : Option Nat) (xs : List Auction) : List Auction :=
  xs.take (limit.getD defaultLimit)

/-- Modelled from the spec: `listAuctions(filters)` returns all auctions
matching the price bounds, sorted by `created_at` descending, capped at
`limit`. -/
def listAuctions (coll : List Auction) (f : Filters) : List Auction :=
  applyLimit f.limit (sortByCreatedDesc (coll.filter (fun a => matchesPrice f a)))

/-- Modelled from the spec: `searchAuctions(q, filters)` fails with
`MissingQueryParameter` when `q` is missing or empty, and otherwise
additionally requires `title` or `description` to contain `q`
case-insensitively, with the same ordering and cap as `listAuctions`. -/
def searchAuctions (coll : List Auction) (q : Option Str) (f : Filters) :
    Except ApiError (List Auction) :=
  match q with
  | none => .error .MissingQueryParameter
  | some qs =>
    if qs.isEmpty then .error .MissingQueryParameter
    else .ok (applyLimit f.limit (sortByCreatedDesc
      (coll.filter (fun a => matchesPrice f a && matchesQuery qs a))))

/-- Hexadecimal digit on code points. -/
def isHexDigit (n : Nat) : Bool :=
  decide ((48 ≤ n ∧ n ≤ 57) ∨ (97 ≤ n ∧ n ≤ 102) ∨ (65 ≤ n ∧ n ≤ 70))

/-- Modelled from the spec: a well-formed identifier for the underlying
store (a MongoDB ObjectId: exactly 24 hexadecimal digits). -/
def wellFormedId (id : Str) : Bool :=
  decide (id.length = 24) && id.all isHexDigit

/-- Modelled from the spec: `getAuctionById(id)` returns the single
matching record, fails with `InvalidIdentifier` on a malformed id, and
fails with `NotFound` when no record has the (well-formed) id. -/
def getAuctionById (coll : List Auction) (id : Str) : Except ApiError Auction :=
  if wellFormedId id then
    match coll.find? (fun a => decide (a.id = id)) with
    | some a => .ok a
    | none => .error .NotFound
  else .error .InvalidIdentifier

/-- Alphanumeric ASCII code point (token characters; everything else is a
token boundary). -/
def isAlphanumeric (n : Nat) : Bool :=
  decide ((48 ≤ n ∧ n ≤ 57) ∨ (65 ≤ n ∧ n ≤ 90) ∨ (97 ≤ n ∧ n ≤ 122))

/-- Modelled from the spec: the short-word filter drops tokens below this
minimum length. -/
def minTokenLength : Nat := 3

/-- Split a string into maximal alphanumeric runs; `acc` holds the
current run reversed. -/
def wordsAux : Str → Str → List Str
  | [], acc => if acc.isEmpty then [] else [acc.reverse]
  | c :: cs, acc =>
    if isAlphanumeric c then wordsAux cs (c :: acc)
    else if acc.isEmpty then wordsAux cs []
    else acc.reverse :: wordsAux cs []

/-- Modelled from the spec: tokenize text by lower-casing, splitting on
non-alphanumeric boundaries, and discarding tokens below the minimum
length. -/
def tokenize (s : Str) : List Str :=
  (wordsAux (lowerStr s) []).filter (fun t => decide (minTokenLength ≤ t.length))

/-- The token set of an auction: the tokens of its title and of its
description. -/
def auctionTokens (a : Auction) : List Str :=
  tokenize a.title ++ tokenize a.description

/-- Modelled from the spec: an auction qualifies as similar when any of
its tokens occurs in the reference token set. -/
def sharesToken (a r : Auction) : Bool :=
  (auctionTokens a).any (fun t => decide (t ∈ auctionTokens r))

/-- Modelled from the spec: the similar auctions of a reference `r` are
the other auctions (excluding `r` by id) sharing at least one token, in
default collection order, capped at `limit`. -/
def similarAuctions (coll : List Auction) (r : Auction) (limit : Option Nat) :
    List Auction :=
  applyLimit limit
    (coll.filter (fun a => decide (a.id ≠ r.id) && sharesToken a r))

/-- Modelled from the spec: the similarity endpoint fetches the reference
auction by id (propagating `NotFound` / `InvalidIdentifier`) and returns
its similar auctions. -/
def getSimilar (coll : List Auction) (id : Str) (limit : Option Nat) :
    Except ApiError (List Auction) :=
  match getAuctionById coll id with
  | .error e => .error e
  | .ok r => .ok (similarAuctions coll r limit)

/-- The JSON envelope wrapped around every successful list-shaped
response. -/
structure Envelope where
  success : Bool
  count : Nat
  data : List Auction
  deriving DecidableEq

/-- Modelled from the spec: a successful list-shaped response reports
`success: true` and `count` alongside the data. -/
def okEnvelope (xs : List Auction) : Envelope :=
  { success := true, count := xs.length, data := xs }

/-- The list endpoint's response envelope. -/
def listEndpoint (coll : List Auction) (f : Filters) : Envelope :=
  okEnvelope (listAuctions coll f)

/-- The search endpoint's response envelope (on the success path). -/
def searchEndpoint (coll : List Auction) (q : Option Str) (f : Filters) :
    Except ApiError Envelope :=
  (searchAuctions coll q f).map okEnvelope

/-- The similarity endpoint's response envelope (on the success path). -/
def similarEndpoint (coll : List Auction) (id : Str) (limit : Option Nat) :
    Except ApiError Envelope :=
  (getSimilar coll id limit).map okEnvelope

deriving instance DecidableEq for Except

/-! ### Concrete sample data

The five fixtures seeded by the API test suite, with store-assigned ids
(24 hexadecimal digits) and insertion-order timestamps. -/

/-- A store identifier made of 24 copies of one hex-digit code point. -/
def sid (k : Nat) : Str := List.replicate 24 k

/-- Test fixture: Gaming Laptop. -/
def A1 : Auction :=
  { id := sid 97, title := strOf "Gaming Laptop",
    description := strOf "High-performance gaming laptop with RTX graphics",
    start_price := 1000, reserve_price := 1500, created_at := 1, updated_at := 1 }

/-- Test fixture: Mountain Bike. -/
def A2 : Auction :=
  { id := sid 98, title := strOf "Mountain Bike",
    description := strOf "Professional mountain bike for trail riding",
    start_price := 500, reserve_price := 800, created_at := 2, updated_at := 2 }

/-- Test fixture: Vintage Guitar. -/
def A3 : Auction :=
  { id := sid 99, title := strOf "Vintage Guitar",
    description := strOf "Classic acoustic guitar from the 1970s",
    start_price := 300, reserve_price := 600, created_at := 3, updated_at := 3 }

/-- Test fixture: Gaming Console. -/
def A4 : Auction :=
  { id := sid 100, title := strOf "Gaming Console",
    description := strOf "Latest generation gaming console with controller",
    start_price := 400, reserve_price := 550, created_at := 4, updated_at := 4 }

/-- Test fixture: Office Desk. -/
def A5 : Auction :=
  { id := sid 101, title := strOf "Office Desk",
    description := strOf "Modern standing desk for home office",
    start_price := 200, reserve_price := 350, created_at := 5, updated_at := 5 }

/-- The seeded test collection. -/
def coll5 : List Auction := [A1, A2, A3, A4, A5]

/-- An auction sharing no token with any fixture (the unique-item test). -/
def AU : Auction :=
  { id := sid 102, title := strOf "Xyz Unique Item",
    description := strOf "Completely unique description",
    start_price := 100, reserve_price := 200, created_at := 6, updated_at := 6 }

/-! ### Basic inversion lemmas -/

/-- Membership in a list result implies membership in the collection and
satisfaction of the price filter. -/
theorem mem_of_mem_listAuctions {coll : List Auction} {f : Filters} {a : Auction}
    (h : a ∈ listAuctions coll f) : a ∈ coll ∧ matchesPrice f a = true := by
  have h1 : a ∈ sortByCreatedDesc (coll.filter (fun a => matchesPrice f a)) :=
    List.take_subset _ _ h
  rw [sortByCreatedDesc, List.mem_insertionSort] at h1
  exact ⟨(List.mem_filter.mp h1).1, (List.mem_filter.mp h1).2⟩

/-- Inversion for a successful search: the result is the filtered, sorted,
capped view and the query was non-empty. -/
theorem searchAuctions_ok {coll : List Auction} {qs : Str} {f : Filters}
    {res : List Auction} (h : searchAuctions coll (some qs) f = .ok res) :
    qs ≠ [] ∧
      res = applyLimit f.limit (sortByCreatedDesc
        (coll.filter (fun a => matchesPrice f a && matchesQuery qs a))) := by
  unfold searchAuctions at h
  by_cases he : qs.isEmpty
  · simp [he] at h
  · simp [he] at h
    exact ⟨by simpa [List.isEmpty_iff] using he, h.symm⟩

/-- Membership in a successful search result implies membership in the
collection and satisfaction of both predicates. -/
theorem mem_of_mem_search {coll : List Auction} {qs : Str} {f : Filters}
    {res : List Auction} (h : searchAuctions coll (some qs) f = .ok res)
    {a : Auction} (ha : a ∈ res) :
    a ∈ coll ∧ matchesPrice f a = true ∧ matchesQuery qs a = true := by
  obtain ⟨-, rfl⟩ := searchAuctions_ok h
  have h1 : a ∈ sortByCreatedDesc
      (coll.filter (fun a => matchesPrice f a && matchesQuery qs a)) :=
    List.take_subset _ _ ha
  rw [sortByCreatedDesc, List.mem_insertionSort] at h1
  have h2 := List.mem_filter.mp h1
  exact ⟨h2.1, by simpa [Bool.and_eq_true] using h2.2⟩

/-- A successful point lookup returns a member of the collection bearing
the requested id. -/
theorem getAuctionById_ok {coll : List Auction} {id : Str} {a : Auction}
    (h : getAuctionById coll id = .ok a) : a ∈ coll ∧ a.id = id := by
  unfold getAuctionById at h
  by_cases hw : wellFormedId id
  · rw [if_pos hw] at h
    cases hf : coll.find? (fun a => decide (a.id = id)) with
    | none => rw [hf] at h; cases h
    | some b =>
      rw [hf] at h
      have hb : b = a := by simpa using h
      subst hb
      refine ⟨List.mem_of_find?_eq_some hf, ?_⟩
      have := List.find?_some hf
      simpa using this
  · rw [if_neg hw] at h
    cases h

/-- Inversion for a successful similarity lookup. -/
theorem getSimilar_ok {coll : List Auction} {id : Str} {limit : Option Nat}
    {res : List Auction} (h : getSimilar coll id limit = .ok res) :
    ∃ r, getAuctionById coll id = .ok r ∧ res = similarAuctions coll r limit := by
  unfold getSimilar at h
  cases hg : getAuctionById coll id with
  | error e => rw [hg] at h; cases h
  | ok r =>
    rw [hg] at h
    exact ⟨r, rfl, by simpa using h.symm⟩

/-- Membership in a similarity result implies membership in the
collection, a shared token, and a distinct id. -/
theorem mem_of_mem_similar {coll : List Auction} {r : Auction}
    {limit : Option Nat} {a : Auction} (ha : a ∈ similarAuctions coll r limit) :
    a ∈ coll ∧ a.id ≠ r.id ∧ sharesToken a r = true := by
  have h1 := List.mem_filter.mp (List.take_subset _ _ ha)
  refine ⟨h1.1, ?_, ?_⟩
  · have := h1.2
    simp [Bool.and_eq_true] at this
    exact this.1
  · have := h1.2
    simp [Bool.and_eq_true] at this
    exact this.2

/-! ### Claim theorems -/

/-- Claim C3: for all supplied price bounds `lo` (`minPrice`) and `hi`
(`maxPrice`), every auction returned by `listAuctions` satisfies
`lo <= start_price <= hi` when both bounds are supplied, and only the
supplied side when one is omitted. -/
theorem listAuctions_respects_price_bounds (coll : List Auction) (f : Filters)
    (a : Auction) (ha : a ∈ listAuctions coll f) :
    (∀ lo, f.minPrice = some lo → lo ≤ a.start_price) ∧
    (∀ hi, f.maxPrice = some hi → a.start_price ≤ hi) := by
  have h := (mem_of_mem_listAuctions ha).2
  unfold matchesPrice at h
  constructor
  · intro lo hlo
    rw [hlo] at h
    simp [Bool.and_eq_true] at h
    exact h.1
  · intro hi hhi
    rw [hhi] at h
    simp [Bool.and_eq_true] at h
    exact h.2

/-- Witness for C3: on the seeded collection with bounds 300..500,
Gaming Console (start price 400) is returned and both bounds hold. -/
theorem listAuctions_respects_price_bounds_witness :
    A4 ∈ listAuctions coll5 ⟨some 300, some 500, none⟩ ∧
      (300 : Int) ≤ A4.start_price ∧ A4.start_price ≤ (500 : Int) :=
  ⟨by decide,
    (listAuctions_respects_price_bounds coll5 ⟨some 300, some 500, none⟩ A4
      (by decide)).1 300 rfl,
    (listAuctions_respects_price_bounds coll5 ⟨some 300, some 500, none⟩ A4
      (by decide)).2 500 rfl⟩

/-- Claim C5: for every collection state and combination of other
filters, `searchAuctions` with a missing or empty query always fails with
`MissingQueryParameter` and never returns data. -/
theorem searchAuctions_missing_query_fails (coll : List Auction) (f : Filters) :
    searchAuctions coll none f = .error .MissingQueryParameter ∧
    searchAuctions coll (some []) f = .error .MissingQueryParameter :=
  ⟨rfl, rfl⟩

/-- Claim C6: `getAuctionById` fails with `NotFound` on a well-formed but
absent id, fails with the distinct error `InvalidIdentifier` on a
malformed id, and the two failure kinds are never conflated. -/
theorem getAuctionById_error_kinds (coll : List Auction) (id : Str) :
    (wellFormedId id = true → (∀ a ∈ coll, a.id ≠ id) →
      getAuctionById coll id = .error .NotFound) ∧
    (wellFormedId id = false →
      getAuctionById coll id = .error .InvalidIdentifier) ∧
    (Except.error ApiError.NotFound : Except ApiError Auction) ≠
      .error .InvalidIdentifier := by
  refine ⟨?_, ?_, by decide⟩
  · intro hw habs
    unfold getAuctionById
    rw [if_pos hw]
    have hn : coll.find? (fun a => decide (a.id = id)) = none := by
      rw [List.find?_eq_none]
      intro x hx
      simpa using habs x hx
    rw [hn]
  · intro hw
    unfold getAuctionById
    rw [if_neg (by simp [hw])]

/-- Witness for C6: an absent well-formed id yields `NotFound`; the
malformed id given by a single code point yields `InvalidIdentifier`. -/
theorem getAuctionById_error_kinds_witness :
    getAuctionById [A1] (sid 98) = .error .NotFound ∧
    getAuctionById [A1] [120] = .error .InvalidIdentifier :=
  ⟨(getAuctionById_error_kinds [A1] (sid 98)).1 (by decide) (by decide),
    (getAuctionById_error_kinds [A1] [120]).2.1 (by decide)⟩

/-- The sorting stage yields a sequence pairwise ordered by descending
`created_at`. -/
theorem sortByCreatedDesc_pairwise (xs : List Auction) :
    (sortByCreatedDesc xs).Pairwise createdDesc :=
  List.sorted_insertionSort createdDesc xs

/-- Claim C7: the similarity result for a reference id never contains an
auction with that id, even when the reference's tokens would trivially
match itself. -/
theorem similar_excludes_reference (coll : List Auction) (id : Str)
    (limit : Option Nat) (res : List Auction) (a : Auction)
    (h : getSimilar coll id limit = .ok res) (ha : a ∈ res) :
    a.id ≠ id := by
  obtain ⟨r, hg, rfl⟩ := getSimilar_ok h
  have hrid : r.id = id := (getAuctionById_ok hg).2
  have := (mem_of_mem_similar ha).2.1
  rw [← hrid]
  exact this

/-- Witness for C7: similarity of Gaming Laptop over the seeded
collection returns Gaming Console, whose id differs from the
reference's. -/
theorem similar_excludes_reference_witness :
    getSimilar coll5 A1.id (some 5) = .ok [A4] ∧ A4.id ≠ A1.id :=
  ⟨by decide,
    similar_excludes_reference coll5 A1.id (some 5) [A4] A4 (by decide)
      (by decide)⟩

/-- Claim C8: whenever the limit parameter is present and a valid
positive integer, the result length of `listAuctions`, `searchAuctions`
and the similarity lookup is at most that limit. -/
theorem limit_caps_result_length (coll : List Auction) (f : Filters)
    (n : Nat) (q : Str) (id : Str) (res₁ res₂ : List Auction)
    (hn : 0 < n) (hf : f.limit = some n) :
    (listAuctions coll f).length ≤ n ∧
    (searchAuctions coll (some q) f = .ok res₁ → res₁.length ≤ n) ∧
    (getSimilar coll id (some n) = .ok res₂ → res₂.length ≤ n) := by
  refine ⟨?_, ?_, ?_⟩
  · unfold listAuctions applyLimit
    rw [hf]
    exact List.length_take_le _ _
  · intro h
    obtain ⟨-, rfl⟩ := searchAuctions_ok h
    unfold applyLimit
    rw [hf]
    exact List.length_take_le _ _
  · intro h
    obtain ⟨r, -, rfl⟩ := getSimilar_ok h
    unfold similarAuctions applyLimit
    exact List.length_take_le _ _

/-- Witness for C8: with limit 2 on the seeded collection, the list,
search and similarity results all have length at most 2. -/
theorem limit_caps_result_length_witness :
    0 < 2 ∧ (listAuctions coll5 ⟨none, none, some 2⟩).length ≤ 2 ∧
      ([A4, A1] : List Auction).length ≤ 2 ∧
      ([A4] : List Auction).length ≤ 2 :=
  ⟨Nat.zero_lt_two,
    (limit_caps_result_length coll5 ⟨none, none, some 2⟩ 2
      (strOf "gaming") A1.id [A4, A1] [A4] Nat.zero_lt_two rfl).1,
    (limit_caps_result_length coll5 ⟨none, none, some 2⟩ 2
      (strOf "gaming") A1.id [A4, A1] [A4] Nat.zero_lt_two rfl).2.1
      (by decide),
    (limit_caps_result_length coll5 ⟨none, none, some 2⟩ 2
      (strOf "gaming") A1.id [A4, A1] [A4] Nat.zero_lt_two rfl).2.2
      (by decide)⟩

/-- Claim C4: the sequences returned by `listAuctions` and by
`searchAuctions` both have non-increasing `created_at` timestamps across
consecutive results. -/
theorem results_sorted_by_created_desc (coll : List Auction) (f : Filters)
    (q : Str) (res : List Auction) :
    (listAuctions coll f).Chain' (fun a b => b.created_at ≤ a.created_at) ∧
    (searchAuctions coll (some q) f = .ok res →
      res.Chain' (fun a b => b.created_at ≤ a.created_at)) := by
  constructor
  · exact (((sortByCreatedDesc_pairwise _).sublist
      (List.take_sublist _ _))).chain'
  · intro h
    obtain ⟨-, rfl⟩ := searchAuctions_ok h
    exact (((sortByCreatedDesc_pairwise _).sublist
      (List.take_sublist _ _))).chain'

/-- Witness for C4: on the seeded collection the list result and the
result of searching "gaming" are consecutive-non-increasing in
`created_at`. -/
theorem results_sorted_by_created_desc_witness :
    (listAuctions coll5 ⟨none, none, none⟩).Chain'
      (fun a b => b.created_at ≤ a.created_at) ∧
    ([A4, A1] : List Auction).Chain' (fun a b => b.created_at ≤ a.created_at) :=
  ⟨(results_sorted_by_created_desc coll5 ⟨none, none, none⟩
      (strOf "gaming") [A4, A1]).1,
    (results_sorted_by_created_desc coll5 ⟨none, none, none⟩
      (strOf "gaming") [A4, A1]).2 (by decide)⟩

/-- Lower-casing absorbs a preceding upper-casing on code points. -/
theorem lowerCp_upperCp (n : Nat) : lowerCp (upperCp n) = lowerCp n := by
  unfold lowerCp upperCp
  split_ifs <;> omega

/-- Lower-casing is idempotent on code points. -/
theorem lowerCp_lowerCp (n : Nat) : lowerCp (lowerCp n) = lowerCp n := by
  unfold lowerCp
  split_ifs <;> omega

/-- Lower-casing absorbs a preceding upper-casing on strings. -/
theorem lowerStr_upperStr (q : Str) : lowerStr (upperStr q) = lowerStr q := by
  unfold lowerStr upperStr
  rw [List.map_map]
  exact List.map_congr_left (fun a _ => lowerCp_upperCp a)

/-- Lower-casing is idempotent on strings. -/
theorem lowerStr_lowerStr (q : Str) : lowerStr (lowerStr q) = lowerStr q := by
  unfold lowerStr
  rw [List.map_map]
  exact List.map_congr_left (fun a _ => lowerCp_lowerCp a)

/-- Claim C1: an auction appears in `searchAuctions(q, filters)` only if
it satisfies the supplied price bounds on `start_price` and its title or
description contains `q` case-insensitively; and searching with `q`
upper-cased and with `q` lower-cased yields identical results. -/
theorem searchAuctions_filters_and_case_insensitive (coll : List Auction)
    (q : Str) (f : Filters) :
    (∀ res a, searchAuctions coll (some q) f = .ok res → a ∈ res →
      (∀ lo, f.minPrice = some lo → lo ≤ a.start_price) ∧
      (∀ hi, f.maxPrice = some hi → a.start_price ≤ hi) ∧
      matchesQuery q a = true) ∧
    searchAuctions coll (some (upperStr q)) f =
      searchAuctions coll (some (lowerStr q)) f := by
  constructor
  · intro res a h ha
    obtain ⟨-, hp, hq⟩ := mem_of_mem_search h ha
    refine ⟨?_, ?_, hq⟩
    · intro lo hlo
      unfold matchesPrice at hp
      rw [hlo] at hp
      simp [Bool.and_eq_true] at hp
      exact hp.1
    · intro hi hhi
      unfold matchesPrice at hp
      rw [hhi] at hp
      simp [Bool.and_eq_true] at hp
      exact hp.2
  · have hm : ∀ a, matchesQuery (upperStr q) a = matchesQuery (lowerStr q) a := by
      intro a
      unfold matchesQuery
      rw [lowerStr_upperStr, lowerStr_lowerStr]
    cases q with
    | nil => rfl
    | cons c cs =>
      simp only [searchAuctions]
      have h1 : (upperStr (c :: cs)).isEmpty = false := rfl
      have h2 : (lowerStr (c :: cs)).isEmpty = false := rfl
      rw [h1, h2]
      simp only [Bool.false_eq_true, if_false]
      have hfe : coll.filter
          (fun a => matchesPrice f a && matchesQuery (upperStr (c :: cs)) a) =
          coll.filter
          (fun a => matchesPrice f a && matchesQuery (lowerStr (c :: cs)) a) :=
        List.filter_congr (fun a _ => by rw [hm])
      rw [hfe]

/-- Witness for C1: searching "gaming" with minPrice 500 over the seeded
collection returns exactly Gaming Laptop, which satisfies the bound and
the case-insensitive match; and searching "GAMING" equals searching
"gaming". -/
theorem searchAuctions_filters_and_case_insensitive_witness :
    ((500 : Int) ≤ A1.start_price ∧ matchesQuery (strOf "gaming") A1 = true) ∧
    searchAuctions coll5 (some (upperStr (strOf "gaming")))
        ⟨none, none, none⟩ =
      searchAuctions coll5 (some (lowerStr (strOf "gaming")))
        ⟨none, none, none⟩ :=
  ⟨⟨((searchAuctions_filters_and_case_insensitive coll5 (strOf "gaming")
        ⟨some 500, none, none⟩).1 [A1] A1 (by decide) (by decide)).1
      500 rfl,
    ((searchAuctions_filters_and_case_insensitive coll5 (strOf "gaming")
        ⟨some 500, none, none⟩).1 [A1] A1 (by decide) (by decide)).2.2⟩,
    (searchAuctions_filters_and_case_insensitive coll5 (strOf "gaming")
        ⟨none, none, none⟩).2⟩

/-- A schema-valid auction whose reserve price is below its start price
(the schema does not relate the two prices). -/
def AR : Auction :=
  { id := sid 97, title := strOf "Rare Coin",
    description := strOf "Old collectible coin",
    start_price := 100, reserve_price := 40, created_at := 7, updated_at := 7 }

/-- Pointwise: the implementation's similarity test agrees with the
declarative "distinct id and nonzero token intersection" predicate. -/
theorem similarity_test_eq_decl (r a : Auction) :
    (decide (a.id ≠ r.id) && sharesToken a r) =
      decide (a.id ≠ r.id ∧ ∃ t, t ∈ auctionTokens a ∧ t ∈ auctionTokens r) := by
  rw [Bool.decide_and]
  have hs : sharesToken a r =
      decide (∃ t, t ∈ auctionTokens a ∧ t ∈ auctionTokens r) := by
    unfold sharesToken
    cases hd : decide (∃ t, t ∈ auctionTokens a ∧ t ∈ auctionTokens r) with
    | true =>
      rw [List.any_eq_true]
      obtain ⟨t, ht1, ht2⟩ := of_decide_eq_true hd
      exact ⟨t, ht1, by simpa using ht2⟩
    | false =>
      have hno := of_decide_eq_false hd
      rw [List.any_eq_false]
      intro t ht
      simp only [decide_eq_true_eq]
      intro hc
      exact hno ⟨t, ht, hc⟩
  rw [hs]

/-- Claim C2: for a reference auction `r` present in the collection, the
similarity operation returns exactly the other auctions whose token sets
intersect `r`'s token set, in default collection order capped at `limit`;
and when no other auction shares a token the result is the empty
sequence returned as success. -/
theorem getSimilar_characterization (coll : List Auction) (r : Auction)
    (limit : Option Nat) (h : getAuctionById coll r.id = .ok r) :
    getSimilar coll r.id limit = .ok ((coll.filter (fun a =>
        decide (a.id ≠ r.id ∧ ∃ t, t ∈ auctionTokens a ∧
          t ∈ auctionTokens r))).take (limit.getD defaultLimit)) ∧
    ((∀ a ∈ coll, a.id ≠ r.id → ∀ t ∈ auctionTokens a, t ∉ auctionTokens r) →
      getSimilar coll r.id limit = .ok []) := by
  constructor
  · simp only [getSimilar, h]
    unfold similarAuctions applyLimit
    rw [List.filter_congr (fun a _ => similarity_test_eq_decl r a)]
  · intro hno
    have hz : coll.filter (fun a => decide (a.id ≠ r.id) && sharesToken a r)
        = [] := by
      rw [List.filter_eq_nil_iff]
      intro a ha
      rw [similarity_test_eq_decl r a]
      simp only [decide_eq_true_eq, not_and]
      rintro hne ⟨t, ht1, ht2⟩
      exact hno a ha hne t ht1 ht2
    simp only [getSimilar, h]
    unfold similarAuctions applyLimit
    rw [hz]
    simp

/-- Witness for C2: the similarity of Gaming Laptop over the seeded
collection equals the declarative filtered-and-capped view, and the
unique item in a singleton collection yields the empty success result. -/
theorem getSimilar_characterization_witness :
    getSimilar coll5 A1.id (some 5) = .ok ((coll5.filter (fun a =>
        decide (a.id ≠ A1.id ∧ ∃ t, t ∈ auctionTokens a ∧
          t ∈ auctionTokens A1))).take ((some 5).getD defaultLimit)) ∧
    getSimilar [AU] AU.id none = .ok [] :=
  ⟨(getSimilar_characterization coll5 A1 (some 5) (by decide)).1,
    (getSimilar_characterization [AU] AU none (by decide)).2 (by decide)⟩

/-- Claim C9: every auction accepted by the schema satisfies
`start_price >= 0` and `reserve_price >= 0`; the invariant is preserved
by every (read-only) operation; and no ordering between `reserve_price`
and `start_price` is enforced, so some valid auction has
`reserve_price < start_price`. -/
theorem schema_price_invariant :
    (∀ a, schemaValid a = true → 0 ≤ a.start_price ∧ 0 ≤ a.reserve_price) ∧
    (∀ coll, (∀ a ∈ coll, schemaValid a = true) →
      (∀ f a, a ∈ listAuctions coll f →
        0 ≤ a.start_price ∧ 0 ≤ a.reserve_price) ∧
      (∀ q f res a, searchAuctions coll (some q) f = .ok res → a ∈ res →
        0 ≤ a.start_price ∧ 0 ≤ a.reserve_price) ∧
      (∀ id limit res a, getSimilar coll id limit = .ok res → a ∈ res →
        0 ≤ a.start_price ∧ 0 ≤ a.reserve_price) ∧
      (∀ id a, getAuctionById coll id = .ok a →
        0 ≤ a.start_price ∧ 0 ≤ a.reserve_price)) ∧
    (∃ a, schemaValid a = true ∧ a.reserve_price < a.start_price) := by
  have hval : ∀ a : Auction, schemaValid a = true →
      0 ≤ a.start_price ∧ 0 ≤ a.reserve_price := by
    intro a ha
    simp only [schemaValid, Bool.and_eq_true, decide_eq_true_eq] at ha
    exact ⟨ha.1.2, ha.2⟩
  refine ⟨hval, ?_, ⟨AR, by decide, by decide⟩⟩
  intro coll hcoll
  refine ⟨?_, ?_, ?_, ?_⟩
  · intro f a ha
    exact hval a (hcoll a (mem_of_mem_listAuctions ha).1)
  · intro q f res a h ha
    exact hval a (hcoll a (mem_of_mem_search h ha).1)
  · intro id limit res a h ha
    obtain ⟨r, -, rfl⟩ := getSimilar_ok h
    exact hval a (hcoll a (mem_of_mem_similar ha).1)
  · intro id a h
    exact hval a (hcoll a (getAuctionById_ok h).1)

/-- Witness for C9: the fixtures are schema-valid with non-negative
prices, and the invariant holds on a member of a list result. -/
theorem schema_price_invariant_witness :
    (0 ≤ A1.start_price ∧ 0 ≤ A1.reserve_price) ∧
    (0 ≤ A4.start_price ∧ 0 ≤ A4.reserve_price) :=
  ⟨schema_price_invariant.1 A1 (by decide),
    (schema_price_invariant.2.1 coll5 (by decide)).1 ⟨none, none, none⟩ A4
      (by decide)⟩

/-- Claim C10: every successful response envelope of the list, search and
similarity endpoints has `success = true` and `count` equal to the length
of `data`; in particular the empty result has `count = 0` and empty
`data`. -/
theorem envelope_count_matches_data (coll : List Auction) (f : Filters)
    (q : Option Str) (id : Str) (limit : Option Nat) (env env₂ : Envelope) :
    ((listEndpoint coll f).success = true ∧
      (listEndpoint coll f).count = (listEndpoint coll f).data.length) ∧
    (searchEndpoint coll q f = .ok env →
      env.success = true ∧ env.count = env.data.length) ∧
    (similarEndpoint coll id limit = .ok env₂ →
      env₂.success = true ∧ env₂.count = env₂.data.length) ∧
    ((listEndpoint [] f).count = 0 ∧ (listEndpoint [] f).data = []) := by
  have hnil : listAuctions [] f = [] := by
    simp [listAuctions, applyLimit, sortByCreatedDesc, List.insertionSort]
  refine ⟨⟨rfl, rfl⟩, ?_, ?_, ?_⟩
  · intro h
    unfold searchEndpoint at h
    cases hs : searchAuctions coll q f with
    | error e => rw [hs] at h; simp [Except.map] at h
    | ok res =>
      rw [hs] at h
      have he : env = okEnvelope res := by simpa [Except.map] using h.symm
      subst he
      exact ⟨rfl, rfl⟩
  · intro h
    unfold similarEndpoint at h
    cases hs : getSimilar coll id limit with
    | error e => rw [hs] at h; simp [Except.map] at h
    | ok res =>
      rw [hs] at h
      have he : env₂ = okEnvelope res := by simpa [Except.map] using h.symm
      subst he
      exact ⟨rfl, rfl⟩
  · constructor
    · simp [listEndpoint, okEnvelope, hnil]
    · simp [listEndpoint, okEnvelope, hnil]

/-- Witness for C10: concrete search and similarity envelopes over the
seeded collection have matching count and data length. -/
theorem envelope_count_matches_data_witness :
    ((okEnvelope [A4, A1]).success = true ∧
      (okEnvelope [A4, A1]).count = (okEnvelope [A4, A1]).data.length) ∧
    ((okEnvelope [A4]).success = true ∧
      (okEnvelope [A4]).count = (okEnvelope [A4]).data.length) :=
  ⟨(envelope_count_matches_data coll5 ⟨none, none, none⟩
      (some (strOf "gaming")) A1.id (some 5)
      (okEnvelope [A4, A1]) (okEnvelope [A4])).2.1 (by decide),
    (envelope_count_matches_data coll5 ⟨none, none, none⟩
      (some (strOf "gaming")) A1.id (some 5)
      (okEnvelope [A4, A1]) (okEnvelope [A4])).2.2.1 (by decide)⟩
